import Mathlib

/-!
Verification of the grading engine in `src/evaluator.py`.

Texts are modelled as `List Char`.  Python floats are modelled exactly:
`float(token)` parses the token (signs, digit groups with PEP 515
underscores, fraction, exponent, and the case-insensitive special words)
and rounds its exact decimal value to the nearest IEEE-754 binary64 —
round half to even, with subnormals and overflow to infinity — carried as
the double's exact rational value in `PyFloat`; the format `f"..."` with
spec `.6f` is the correctly rounded six-decimal rendering of that binary
value with the sign taken from the value, as CPython's formatting is, and
the threshold `1e-9` of the source is itself the binary64 value of that
literal.  Whitespace is the ASCII fragment of Python's str whitespace.
The subprocess boundary is modelled
by an oracle `Exec : Str → Str → RawExec` giving, for an interpreter
command and a stdin text, the raw outcome of the process (captured
streams, timeout, or launch failure); `execute_command` applies the
post-processing the source performs on that outcome.
-/

set_option maxRecDepth 8000

set_option exponentiation.threshold 4000

abbrev Str := List Char

/-- Python `str` whitespace, ASCII fragment: space, tab, newline, carriage
return, vertical tab, form feed. -/
def pyWS (c : Char) : Bool :=
  c = ' ' || c = '\t' || c = '\n' || c = '\r' || c = '\x0b' || c = '\x0c'

/-- Python `str.lstrip()`. -/
def lstrip (s : Str) : Str := s.dropWhile pyWS

/-- Python `str.rstrip()`. -/
def rstrip (s : Str) : Str := (s.reverse.dropWhile pyWS).reverse

/-- Python `str.strip()`. -/
def strip (s : Str) : Str := rstrip (lstrip s)

/-- Python split on the one-character separator LF, as in the source's
`split` calls on a newline: splitting the empty text yields one empty
piece, and every separator occurrence starts a new piece. -/
def splitNl : Str → List Str
  | [] => [[]]
  | c :: cs =>
    if c = '\n' then [] :: splitNl cs
    else
      match splitNl cs with
      | [] => [[c]]
      | l :: ls => (c :: l) :: ls

/-- Helper for `splitWS`: accumulates the current token in reverse. -/
def splitWSAux : Str → Str → List Str
  | [], acc => if acc.isEmpty then [] else [acc.reverse]
  | c :: cs, acc =>
    if pyWS c then
      if acc.isEmpty then splitWSAux cs [] else acc.reverse :: splitWSAux cs []
    else splitWSAux cs (c :: acc)

/-- Python `str.split()` with no argument: maximal runs of whitespace
separate tokens, and no empty tokens are produced. -/
def splitWS (s : Str) : List Str := splitWSAux s []

/-- Python replace of the two-character sequence CR LF by LF,
left-to-right and non-overlapping. -/
def replaceCRLF : Str → Str
  | '\r' :: '\n' :: cs => '\n' :: replaceCRLF cs
  | c :: cs => c :: replaceCRLF cs
  | [] => []

/-- Python replace of CR by LF, applied after `replaceCRLF`: every
remaining carriage return becomes a newline. -/
def replaceCR (s : Str) : Str := s.map (fun c => if c = '\r' then '\n' else c)

def isDigit (c : Char) : Bool := '0' ≤ c && c ≤ '9'

def digitVal (c : Char) : ℕ := c.toNat - 48

def digChar (d : ℕ) : Char := Char.ofNat (48 + d)

/-- Value of a string of decimal digits, most significant first. -/
def digitsToNat (ds : Str) : ℕ := ds.foldl (fun a c => 10 * a + digitVal c) 0

/-- A Python float value: a finite binary64 (held as its exact rational
value), a signed infinity, or a not-a-number.  The sign of a zero is not
recorded: in this program a zero only ever reaches the magnitude test
`abs(val) < 1e-9`, which is sign-blind, never the formatter. -/
inductive PyFloat where
  | finite (v : ℚ)
  | inf (neg : Bool)
  | nan
deriving DecidableEq

/-- Split a text at the first character satisfying `p`; `none` when no such
character occurs. -/
def splitAtChar (p : Char → Bool) : Str → Str × Option Str
  | [] => ([], none)
  | c :: cs =>
    if p c then ([], some cs)
    else
      let r := splitAtChar p cs
      (c :: r.1, r.2)

/-- A digit group of a float literal per PEP 515: nonempty decimal digits
with single underscores allowed only between digits. -/
def groupOk : Str → Bool
  | [] => false
  | [c] => isDigit c
  | c :: '_' :: rest => isDigit c && groupOk rest
  | c :: rest => isDigit c && groupOk rest

/-- Remove the underscores of a validated digit group. -/
def remU (s : Str) : Str := s.filter (fun c => c != '_')

/-- Exponent part of a float literal: optional sign then a digit group. -/
def parseExp : Str → Option ℤ
  | [] => none
  | '+' :: ds => if groupOk ds then some (digitsToNat (remU ds)) else none
  | '-' :: ds => if groupOk ds then some (-(digitsToNat (remU ds) : ℤ)) else none
  | ds => if groupOk ds then some ((digitsToNat (remU ds) : ℤ)) else none

/-- Mantissa of a float literal: digit groups around an optional decimal
point, at least one digit overall; returns the digits' value together with
the number of fraction digits. -/
def parseMant (s : Str) : Option (ℕ × ℕ) :=
  match splitAtChar (· = '.') s with
  | (ip, none) =>
    if groupOk ip then some (digitsToNat (remU ip), 0) else none
  | (ip, some fp) =>
    if (ip.isEmpty && groupOk fp) || (fp.isEmpty && groupOk ip) ||
        (groupOk ip && groupOk fp) then
      let fd := remU fp
      some (digitsToNat (remU ip) * 10 ^ fd.length + digitsToNat fd, fd.length)
    else none

/-- ASCII lower-casing of one character. -/
def lowerChar (c : Char) : Char :=
  if 'A' ≤ c ∧ c ≤ 'Z' then Char.ofNat (c.toNat + 32) else c

/-- Case-insensitive comparison against a lowercase pattern. -/
def lowerEq (s t : Str) : Bool := s.map lowerChar == t

/-- Round the nonnegative fraction `a / d` to the nearest natural number,
ties to even. -/
def rheNat (a d : ℕ) : ℕ :=
  let q := a / d
  let r := a % d
  if 2 * r < d then q
  else if d < 2 * r then q + 1
  else if q % 2 = 0 then q else q + 1

/-- Fuelled bit length of a natural number (`0` for `0`); `fuel ≥ n`
suffices. -/
def bitlenAux : ℕ → ℕ → ℕ
  | 0, _ => 0
  | fuel + 1, n => if n = 0 then 0 else bitlenAux fuel (n / 2) + 1

def bitlen (n : ℕ) : ℕ := bitlenAux n n

/-- Is `a / b ≥ 2 ^ c` (for positive naturals `a`, `b`)? -/
def qGePow2 (a b : ℕ) (c : ℤ) : Bool :=
  if 0 ≤ c then b * 2 ^ c.toNat ≤ a else b ≤ a * 2 ^ (-c).toNat

/-- Floor of the base-2 logarithm of `a / b` for positive `a`, `b`. -/
def floorLog2 (a b : ℕ) : ℤ :=
  let c : ℤ := (bitlen a : ℤ) - (bitlen b : ℤ)
  if qGePow2 a b c then c else c - 1

/-- Round an exact rational to the nearest IEEE-754 binary64 (round half to
even): scale the magnitude so that the 53-bit significand is an integer
(clamped at the subnormal exponent -1074), round it with ties to even,
renormalize if the rounding carried, and overflow to infinity at 2^1024.
The result is the double's exact rational value, so the program's
threshold test and formatting see exactly what CPython's do. -/
def roundF64 (q : ℚ) : PyFloat :=
  if q = 0 then .finite 0
  else
    let a := q.num.natAbs
    let b := q.den
    let E : ℤ := max (floorLog2 a b - 52) (-1074)
    let num := if 0 ≤ E then a else a * 2 ^ (-E).toNat
    let den := if 0 ≤ E then b * 2 ^ E.toNat else b
    let n0 := rheNat num den
    let nE : ℕ × ℤ := if n0 = 2 ^ 53 then (2 ^ 52, E + 1) else (n0, E)
    -- after renormalization the significand is below 2^53 and, off the
    -- subnormal clamp, at least 2^52, so the rounded value reaches 2^1024
    -- exactly when the exponent reaches 972
    if 972 ≤ nE.2 then .inf (q < 0)
    else if nE.1 = 0 then .finite 0
    else
      .finite (if 0 ≤ nE.2 then
          mkRat ((if q < 0 then -1 else 1) * (nE.1 : ℤ) * (2 : ℤ) ^ nE.2.toNat) 1
        else mkRat ((if q < 0 then -1 else 1) * (nE.1 : ℤ)) ((2 : ℕ) ^ (-nE.2).toNat))

/-- The exact rational `±M * 10 ^ E` (via `mkRat`, which is
kernel-reduction friendly). -/
def qScaled (neg : Bool) (M : ℕ) (E : ℤ) : ℚ :=
  let m : ℤ := if neg then -(M : ℤ) else (M : ℤ)
  if 0 ≤ E then mkRat (m * (10 : ℤ) ^ E.toNat) 1 else mkRat m ((10 : ℕ) ^ (-E).toNat)

/-- Model of Python `float(token)` on whitespace-free tokens (the program
only passes tokens produced by `str.split()`): optional sign, then a
case-insensitive `inf`/`infinity`/`nan`, or a decimal literal — digit
groups with PEP 515 underscores, optional fraction and exponent — whose
exact value is rounded to the nearest binary64.  The alphabet is ASCII
(the Unicode decimal digits and spaces `float()` also maps to ASCII are
outside the model's alphabet, like the non-ASCII whitespace elsewhere);
tokens outside the grammar are rejected, as `float` raises `ValueError`.
The sign of a parsed `nan` is dropped, as CPython's formatting of a nan
ignores it. -/
def parseFloat (s : Str) : Option PyFloat :=
  let sgn : Bool × Str :=
    match s with
    | '+' :: r => (false, r)
    | '-' :: r => (true, r)
    | _ => (false, s)
  if lowerEq sgn.2 "inf".data || lowerEq sgn.2 "infinity".data then some (.inf sgn.1)
  else if lowerEq sgn.2 "nan".data then some .nan
  else
    match splitAtChar (fun c => c = 'e' || c = 'E') sgn.2 with
    | (mant, none) =>
      (parseMant mant).map (fun p => roundF64 (qScaled sgn.1 p.1 (-(p.2 : ℤ))))
    | (mant, some es) =>
      match parseMant mant, parseExp es with
      | some p, some ev => some (roundF64 (qScaled sgn.1 p.1 (ev - (p.2 : ℤ))))
      | _, _ => none

/-- Fuelled decimal rendering of a natural number, most significant digit
first; `fuel ≥ n` suffices. -/
def natStrAux : ℕ → ℕ → Str
  | 0, _ => []
  | _ + 1, 0 => []
  | fuel + 1, n + 1 => natStrAux fuel ((n + 1) / 10) ++ [digChar ((n + 1) % 10)]

def natStr (n : ℕ) : Str := if n = 0 then ['0'] else natStrAux (n + 1) n

/-- Render a fraction-part numerator `n < 10^6` as exactly six digits. -/
def pad6 (n : ℕ) : Str := List.replicate (6 - (natStr n).length) '0' ++ natStr n

/-- Model of Python format spec .6f: for a finite double, the correctly
rounded six-decimal rendering of the double's exact binary value (CPython
formats through a correctly-rounded conversion, which resolves the rare
exact decimal midpoints — dyadic multiples of 10^-6/2 — to even), with the
sign taken from the value, so a negative value rounding to zero renders
with a leading minus; infinities render as `inf`/`-inf` and a nan as
`nan`. -/
def format6 (f : PyFloat) : Str :=
  match f with
  | .nan => "nan".data
  | .inf neg => if neg then "-inf".data else "inf".data
  | .finite v =>
    let n := rheNat (v.num.natAbs * 1000000) v.den
    (if v < 0 then ['-'] else []) ++ natStr (n / 1000000) ++ ['.'] ++ pad6 (n % 1000000)

/-- The binary64 value of the source's threshold literal 1e-9 (`float`
rounds the decimal up, so this constant is slightly larger than exact
1e-9). -/
def lit1e9 : ℚ :=
  match roundF64 (mkRat 1 1000000000) with
  | .finite v => v
  | _ => 0

/-- The program's test `abs(val) < 1e-9` on a Python float: false for
infinities and for a nan (any comparison with a nan is false). -/
def absLtLit (f : PyFloat) (c : ℚ) : Bool :=
  match f with
  | .finite v => |v| < c
  | .inf _ => false
  | .nan => false

/-- Per-token body of `clean_float_output` (src/evaluator.py lines 16-24):
tokens parsing as floats with magnitude below the 1e-9 threshold become
the literal `0.000000`, other parsing tokens become their format-spec-.6f
rendering, and non-parsing tokens pass through unchanged. -/
def cleanToken (t : Str) : Str :=
  match parseFloat t with
  | none => t
  | some f => if absLtLit f lit1e9 then "0.000000".data else format6 f

/-- `clean_float_output` (src/evaluator.py lines 9-26). -/
def clean_float_output (output : Str) : Str :=
  let lines := splitNl (strip output)
  List.intercalate ['\n']
    (lines.map (fun line => List.intercalate [' '] ((splitWS (strip line)).map cleanToken)))

/-- `normalize_output` (src/evaluator.py lines 43-46). -/
def normalize_output (output : Str) : Str :=
  clean_float_output
    (List.intercalate ['\n'] ((splitNl (strip (replaceCRLF output))).map rstrip))

/-- `preprocess_input` (src/evaluator.py lines 28-40); the raw input is the
list-of-lines form the data format uses, which the source joins with
newlines before cleaning. -/
def preprocess_input (raw : List Str) : Str :=
  let d := replaceCR (replaceCRLF (List.intercalate ['\n'] raw))
  List.intercalate ['\n'] ((splitNl (strip d)).map strip) ++ ['\n']

/-- One test case from the data format: an ordered list of input lines and
a list of acceptable expected outputs. -/
structure TestCase where
  input : List Str
  output : List Str
deriving DecidableEq

/-- The fields of the per-submission input record consumed by
`run_python_code` and `evaluate_code`. -/
structure SubmissionData where
  source_code : Str
  lang : Str
  testcases : List TestCase
  lang_cluster : Str
  src_uid : Str
  difficulty : ℤ
deriving DecidableEq

/-- Raw outcome of one subprocess run: the process completed with the two
captured streams, or timed out, or the launch itself failed with an
exception message. -/
inductive RawExec where
  | completed (stdout stderr : Str)
  | timedOut
  | failed (msg : Str)
deriving DecidableEq

/-- Environment oracle: what the sandbox process does for a given
interpreter command and stdin text. -/
abbrev Exec := Str → Str → RawExec

/-- `execute_command` (src/evaluator.py lines 152-172) applied to the raw
outcome: on completion both captured streams are passed through
`str.strip()`; a timeout or a launch failure yields no stdout and a
fixed-form error string. -/
def execute_command (r : RawExec) : Option Str × Str :=
  match r with
  | .completed out err => (some (strip out), strip err)
  | .timedOut => (none, "Error: Execution timed out. Check input formatting.".data)
  | .failed msg => (none, "Error: ".data ++ msg)

/-- Does `pat` occur at the start of the text? -/
def startsWith : Str → Str → Bool
  | [], _ => true
  | _ :: _, [] => false
  | p :: ps, c :: cs => p = c && startsWith ps cs

/-- Python substring containment: does `pat` occur contiguously anywhere in
the text? -/
def containsSub (pat : Str) : Str → Bool
  | [] => pat.isEmpty
  | c :: cs => startsWith pat (c :: cs) || containsSub pat cs

/-- Does a text contain the three-character truncation sentinel? -/
def hasDots (s : Str) : Bool := containsSub "...".data s

/-- The test-case filter (src/evaluator.py lines 54-59): keep a case unless
some expected output or some input line contains the sentinel. -/
def filterTestcases (tcs : List TestCase) : List TestCase :=
  tcs.filter (fun tc => !(tc.output.any hasDots || tc.input.any hasDots))

/-- The alternative runtime variant probed after the declared one
(src/evaluator.py line 64). -/
def otherVariant (lang : Str) : Str :=
  if lang = "python3".data then "python2".data else "python3".data

/-- `tried_versions` (src/evaluator.py line 64). -/
def tried_versions (lang : Str) : List Str :=
  [lang, otherVariant lang]

/-- Interpreter command used for an attempted variant (src/evaluator.py
lines 84-87 and 120-123): the literal `python2` for that variant, the
ambient `python` otherwise. -/
def interpFor (attempt : Str) : Str :=
  if attempt = "python2".data then "python2".data else "python".data

/-- One resolver probe: run the sandbox for the attempted variant on the
given stdin text. -/
def probeOut (ex : Exec) (inp attempt : Str) : Option Str × Str :=
  execute_command (ex (interpFor attempt) inp)

/-- The resolver loop (src/evaluator.py lines 77-99): try the candidate
variants in order on the first filtered case's input, stopping at the
first probe whose error text is empty.  Returns the resolved variant (or
`none`), the value of the `error_output` variable when the loop exits, and
the list of candidates actually probed. -/
def resolveTrace (ex : Exec) (inp : Str) : List Str → Str → Option Str × Str × List Str
  | [], lastErr => (none, lastErr, [])
  | v :: vs, _ =>
    let err := (probeOut ex inp v).2
    if err = [] then (some v, err, [v])
    else
      let r := resolveTrace ex inp vs err
      (r.1, r.2.1, v :: r.2.2)

/-- One entry of the `results` list (the dictionaries built at
src/evaluator.py lines 105-112 and 137-143; the extra `final_lang` key of
the former, always `None`, is omitted). -/
structure Verdict where
  input : Str
  expected : List Str
  actual : Option Str
  error : Str
  exec_outcome : Str
deriving DecidableEq

/-- Grading of one test case with the resolved variant (src/evaluator.py
lines 116-143).  When the error text is empty the sandbox completed, so
`actual_output` is present and the default `[]` in the comparison is never
exercised. -/
def gradeCase (ex : Exec) (final_lang : Str) (tc : TestCase) : Verdict :=
  let input_data := preprocess_input tc.input
  let r := execute_command (ex (interpFor final_lang) input_data)
  let exec_outcome : Str :=
    if r.2 ≠ [] then "ERROR: ".data ++ r.2
    else if tc.output.any
        (fun expected => normalize_output (r.1.getD []) == normalize_output expected) then
      "PASSED".data
    else "FAILED".data
  ⟨input_data, tc.output, r.1, r.2, exec_outcome⟩

/-- The grading loop (src/evaluator.py lines 116-145): cases are graded in
order and the loop breaks after the first verdict that is not `PASSED`. -/
def runCases (ex : Exec) (final_lang : Str) : List TestCase → List Verdict
  | [] => []
  | tc :: rest =>
    let v := gradeCase ex final_lang tc
    if v.exec_outcome = "PASSED".data then v :: runCases ex final_lang rest
    else [v]

/-- The verdict emitted for every filtered case when both candidate
variants fail to resolve (src/evaluator.py lines 101-113): empty actual
output and the shared error text, with the `ERROR: `-prefixed outcome. -/
def unresolvedVerdict (lastErr : Str) (tc : TestCase) : Verdict :=
  ⟨preprocess_input tc.input, tc.output, some [], lastErr, "ERROR: ".data ++ lastErr⟩

/-- `run_python_code` (src/evaluator.py lines 48-149): filter the cases,
return no verdicts when none remain, otherwise resolve the variant on the
first filtered case and either emit the uniform error verdicts (resolution
failed) or grade the cases in order.  The second component is the
submission record after the call, reflecting the in-place overwrite of its
`lang` field when the resolved variant differs from the declared one
(lines 96-98). -/
def run_python_code (ex : Exec) (data : SubmissionData) : List Verdict × SubmissionData :=
  match filterTestcases data.testcases with
  | [] => ([], data)
  | first_case :: rest =>
    match resolveTrace ex (preprocess_input first_case.input) (tried_versions data.lang) [] with
    | (none, lastErr, _) => ((first_case :: rest).map (unresolvedVerdict lastErr), data)
    | (some final_lang, _, _) =>
      (runCases ex final_lang (first_case :: rest),
       if final_lang ≠ data.lang then
         ⟨data.source_code, final_lang, data.testcases, data.lang_cluster,
          data.src_uid, data.difficulty⟩
       else data)

/-- One line of the execution-results stream, as consumed by
`count_passed_problems`. -/
structure ProblemRecord where
  lang_cluster : Str
  src_uid : Str
  difficulty : ℤ
  exec_outcome : List Verdict
deriving DecidableEq

/-- `evaluate_code` (src/evaluator.py lines 175-188): run the submission
and wrap the verdicts in the evaluation record. -/
def evaluate_code (ex : Exec) (d : SubmissionData) : ProblemRecord :=
  ⟨d.lang_cluster, d.src_uid, d.difficulty, (run_python_code ex d).1⟩

/-- The per-record pass test of the aggregator (src/evaluator.py line
210): every verdict's outcome equals `PASSED` — vacuously true for an
empty verdict list. -/
def passFlag (r : ProblemRecord) : Bool :=
  r.exec_outcome.all (fun o => o.exec_outcome == "PASSED".data)

/-- One step of the aggregator's reduction (src/evaluator.py lines
209-215): a record whose pass test holds and whose `src_uid` is not yet
counted appends its id and its difficulty to the accumulator. -/
def countStep (acc : List Str × List ℤ) (r : ProblemRecord) : List Str × List ℤ :=
  if passFlag r then
    if r.src_uid ∈ acc.1 then acc
    else (acc.1 ++ [r.src_uid], acc.2 ++ [r.difficulty])
  else acc

def HARD_BAR : ℤ := 1501

def NON_BAR : ℤ := 2701

/-- `count_passed_problems` (src/evaluator.py lines 203-224) reduced to its
pure content: the Easy and Hard tier counts computed from the stream of
records. -/
def tierCounts (rs : List ProblemRecord) : ℕ × ℕ :=
  let acc := rs.foldl countStep ([], [])
  ((acc.2.filter (fun diff => decide (diff < HARD_BAR))).length,
   (acc.2.filter (fun diff => decide (HARD_BAR ≤ diff ∧ diff < NON_BAR))).length)

/-- The sentinel predicate of the spec: some input line or some expected
output contains the truncation sentinel. -/
def hasSentinel (tc : TestCase) : Bool := tc.input.any hasDots || tc.output.any hasDots

/-- Oracle fixture: the process echoes its stdin and reports no error. -/
def exEcho : Exec := fun _ inp => RawExec.completed inp []

/-- Oracle fixture: the process always reports the error text `boom`. -/
def exBoom : Exec := fun _ _ => RawExec.completed [] "boom".data

/-- Oracle fixture: only the `python2` interpreter runs without error. -/
def exPy2 : Exec := fun interp _ =>
  if interp = "python2".data then RawExec.completed "ok".data []
  else RawExec.completed [] "err".data

def tcOne : TestCase := ⟨["1".data], ["1".data]⟩

def tcFail : TestCase := ⟨["2".data], ["999".data]⟩

def tcDots : TestCase := ⟨["...".data], ["x".data]⟩

def dataB : SubmissionData :=
  ⟨"print(1)".data, "python3".data, [tcOne, tcFail], "python".data, "u1".data, 1000⟩

def dataS : SubmissionData :=
  ⟨"x".data, "python3".data, [tcOne], "python".data, "u3".data, 2000⟩

example : splitNl "a\n".data = ["a".data, [] ] := by decide
example : splitWS "  a  bc ".data = ["a".data, "bc".data] := by decide
example : cleanToken "-0.0000001".data = "-0.000000".data := by decide
example : cleanToken "-0.000000".data = "0.000000".data := by decide
example : cleanToken "0.0000000001".data = "0.000000".data := by decide
example : cleanToken "1".data = "1.000000".data := by decide
example : cleanToken "abc".data = "abc".data := by decide
example : normalize_output "-0.0000001".data = "-0.000000".data := by decide
example : normalize_output "  9 \r\n".data = "9.000000".data := by decide
example : preprocess_input ["3".data] = "3\n".data := by decide
example : cleanToken "1e2".data = "100.000000".data := by decide
example : cleanToken "2.5e-3".data = "0.002500".data := by decide
example : cleanToken "1.5e-6".data = "0.000002".data := by decide
example : cleanToken "+12.".data = "12.000000".data := by decide
example : cleanToken ".5".data = "0.500000".data := by decide
example : cleanToken "1.2.3".data = "1.2.3".data := by decide
example : cleanToken "0.0000025".data = "0.000003".data := by decide
example : cleanToken "0.0000035".data = "0.000003".data := by decide
example : cleanToken "0.1".data = "0.100000".data := by decide
example : cleanToken "0.0078125".data = "0.007812".data := by decide
example : cleanToken "0.0234375".data = "0.023438".data := by decide
example : cleanToken "inf".data = "inf".data := by decide
example : cleanToken "-Infinity".data = "-inf".data := by decide
example : cleanToken "nan".data = "nan".data := by decide
example : cleanToken "1_0.5".data = "10.500000".data := by decide
example : cleanToken "1_".data = "1_".data := by decide
example : cleanToken "1e309".data = "inf".data := by decide
example : cleanToken "-1e-400".data = "0.000000".data := by decide
example : parseFloat "0.1".data =
    some (PyFloat.finite (mkRat 3602879701896397 36028797018963968)) := by decide
example : parseFloat "0.0000025".data =
    some (PyFloat.finite (mkRat 5902958103587057 2361183241434822606848)) := by decide
example : parseFloat "0.0000035".data =
    some (PyFloat.finite (mkRat 8264141345021879 2361183241434822606848)) := by decide
example : parseFloat "1e-9".data =
    some (PyFloat.finite (mkRat 4835703278458517 4835703278458516698824704)) := by decide
example : mkRat 1 1000000000 < lit1e9 := by decide

example :
    (run_python_code exBoom dataB).1.map (fun v => v.exec_outcome) =
      ["ERROR: boom".data, "ERROR: boom".data] := by decide

example :
    (run_python_code exEcho dataB).1.map (fun v => v.exec_outcome) =
      ["PASSED".data, "FAILED".data] := by decide

example : (run_python_code exEcho dataB).2 = dataB := by decide

example : passFlag ⟨"python".data, "a".data, 1000, []⟩ = true := by decide

example : tierCounts [⟨"python".data, "a".data, 1000, []⟩] = (1, 0) := by decide

theorem run_resolved_eq (ex : Exec) (d : SubmissionData) (first : TestCase)
    (rest : List TestCase) (fl le : Str) (tr : List Str)
    (hf : filterTestcases d.testcases = first :: rest)
    (hr : resolveTrace ex (preprocess_input first.input) (tried_versions d.lang) [] =
      (some fl, le, tr)) :
    run_python_code ex d =
      (runCases ex fl (first :: rest),
       if fl ≠ d.lang then
         ⟨d.source_code, fl, d.testcases, d.lang_cluster, d.src_uid, d.difficulty⟩
       else d) := by
  unfold run_python_code
  rw [hf]
  simp only [hr]

theorem run_unresolved_eq (ex : Exec) (d : SubmissionData) (first : TestCase)
    (rest : List TestCase) (le : Str) (tr : List Str)
    (hf : filterTestcases d.testcases = first :: rest)
    (hr : resolveTrace ex (preprocess_input first.input) (tried_versions d.lang) [] =
      (none, le, tr)) :
    run_python_code ex d = ((first :: rest).map (unresolvedVerdict le), d) := by
  unfold run_python_code
  rw [hf]
  simp only [hr]

theorem runCases_dropLast_passed (ex : Exec) (fl : Str) :
    ∀ (tcs : List TestCase), ∀ v ∈ (runCases ex fl tcs).dropLast,
      v.exec_outcome = "PASSED".data := by
  intro tcs
  induction tcs with
  | nil => intro v hv; simp [runCases] at hv
  | cons tc rest ih =>
    intro v hv
    by_cases h : (gradeCase ex fl tc).exec_outcome = "PASSED".data
    · rw [runCases, if_pos h] at hv
      rcases hrest : runCases ex fl rest with _ | ⟨w, ws⟩
      · rw [hrest] at hv
        simp at hv
      · rw [hrest, List.dropLast_cons₂] at hv
        rcases List.mem_cons.mp hv with hveq | hvmem
        · rw [hveq]; exact h
        · exact ih v (by rw [hrest]; exact hvmem)
    · rw [runCases, if_neg h] at hv
      simp at hv

theorem runCases_first_fail (ex : Exec) (fl : Str) :
    ∀ (tcs : List TestCase) (k : ℕ) (tck : TestCase),
      tcs[k]? = some tck →
      (∀ tc ∈ tcs.take k, (gradeCase ex fl tc).exec_outcome = "PASSED".data) →
      (gradeCase ex fl tck).exec_outcome ≠ "PASSED".data →
      runCases ex fl tcs = (tcs.take k).map (gradeCase ex fl) ++ [gradeCase ex fl tck] := by
  intro tcs
  induction tcs with
  | nil => intro k tck hk; simp at hk
  | cons tc rest ih =>
    intro k tck hk hpass hfail
    cases k with
    | zero =>
      simp only [List.getElem?_cons_zero, Option.some.injEq] at hk
      subst hk
      rw [runCases, if_neg hfail]
      simp
    | succ k =>
      have htc : (gradeCase ex fl tc).exec_outcome = "PASSED".data := by
        apply hpass
        simp [List.take_succ_cons]
      rw [runCases, if_pos htc]
      have hk' : rest[k]? = some tck := by simpa using hk
      have hpass' : ∀ x ∈ rest.take k, (gradeCase ex fl x).exec_outcome = "PASSED".data := by
        intro x hx
        exact hpass x (by simp [List.take_succ_cons, hx])
      rw [ih k tck hk' hpass' hfail]
      simp [List.take_succ_cons]

theorem gradeCase_outcome_cases (ex : Exec) (fl : Str) (tc : TestCase) :
    (gradeCase ex fl tc).exec_outcome = "PASSED".data ∨
    (gradeCase ex fl tc).exec_outcome = "FAILED".data ∨
    ∃ msg, (gradeCase ex fl tc).exec_outcome = "ERROR: ".data ++ msg := by
  unfold gradeCase
  dsimp only
  split
  · right; right
    exact ⟨(execute_command (ex (interpFor fl) (preprocess_input tc.input))).2, rfl⟩
  · split
    · left; rfl
    · right; left; rfl

theorem dropWhile_head_false (p : Char → Bool) :
    ∀ (l : Str) (c : Char), (l.dropWhile p).head? = some c → p c = false := by
  intro l
  induction l with
  | nil => intro c hc; simp at hc
  | cons a l ih =>
    intro c hc
    by_cases h : p a
    · rw [List.dropWhile_cons_of_pos h] at hc
      exact ih c hc
    · rw [List.dropWhile_cons_of_neg h] at hc
      simp only [List.head?_cons, Option.some.injEq] at hc
      rw [← hc]
      exact Bool.not_eq_true _ ▸ (by simpa using h)

theorem rstrip_decomp (s : Str) :
    s = rstrip s ++ (s.reverse.takeWhile pyWS).reverse := by
  unfold rstrip
  have h := List.takeWhile_append_dropWhile (p := pyWS) (l := s.reverse)
  calc s = s.reverse.reverse := (List.reverse_reverse s).symm
    _ = (s.reverse.takeWhile pyWS ++ s.reverse.dropWhile pyWS).reverse := by rw [h]
    _ = (s.reverse.dropWhile pyWS).reverse ++ (s.reverse.takeWhile pyWS).reverse := by
        rw [List.reverse_append]

theorem lstrip_decomp (s : Str) : s = s.takeWhile pyWS ++ lstrip s := by
  unfold lstrip
  exact (List.takeWhile_append_dropWhile (p := pyWS) (l := s)).symm

theorem rstrip_head_eq (x : Str) (c : Char) (hc : (rstrip x).head? = some c) :
    x.head? = some c := by
  have hd := rstrip_decomp x
  rcases he : rstrip x with _ | ⟨b, r⟩
  · rw [he] at hc; simp at hc
  · rw [he] at hc hd
    simp only [List.head?_cons, Option.some.injEq] at hc
    rw [hd, List.cons_append, List.head?_cons]
    rw [hc]

theorem strip_head_not_ws (s : Str) (c : Char) (hc : (strip s).head? = some c) :
    pyWS c = false := by
  unfold strip at hc
  have h1 : (lstrip s).head? = some c := rstrip_head_eq (lstrip s) c hc
  exact dropWhile_head_false pyWS s c h1

theorem getLast_reverse_head (l : Str) : l.reverse.getLast? = l.head? := by
  cases l with
  | nil => rfl
  | cons a t => simp

theorem strip_last_not_ws (s : Str) (c : Char) (hc : (strip s).getLast? = some c) :
    pyWS c = false := by
  unfold strip rstrip at hc
  rw [getLast_reverse_head] at hc
  exact dropWhile_head_false pyWS (lstrip s).reverse c hc

theorem strip_infix_decomp (s : Str) : ∃ l r, s = l ++ strip s ++ r := by
  refine ⟨s.takeWhile pyWS, ((lstrip s).reverse.takeWhile pyWS).reverse, ?_⟩
  unfold strip
  calc s = s.takeWhile pyWS ++ lstrip s := lstrip_decomp s
    _ = s.takeWhile pyWS ++
        (rstrip (lstrip s) ++ ((lstrip s).reverse.takeWhile pyWS).reverse) := by
        rw [← rstrip_decomp (lstrip s)]
    _ = s.takeWhile pyWS ++ rstrip (lstrip s) ++
        ((lstrip s).reverse.takeWhile pyWS).reverse := by
        rw [List.append_assoc]

theorem filterTestcases_eq_filter (tcs : List TestCase) :
    filterTestcases tcs = tcs.filter (fun tc => !hasSentinel tc) := by
  unfold filterTestcases hasSentinel
  apply List.filter_congr
  intro tc _
  rw [Bool.or_comm]

theorem resolveTrace_pair (ex : Exec) (inp a b le0 : Str) :
    ((probeOut ex inp a).2 = [] →
      resolveTrace ex inp [a, b] le0 = (some a, [], [a])) ∧
    ((probeOut ex inp a).2 ≠ [] → (probeOut ex inp b).2 = [] →
      resolveTrace ex inp [a, b] le0 = (some b, [], [a, b])) ∧
    ((probeOut ex inp a).2 ≠ [] → (probeOut ex inp b).2 ≠ [] →
      resolveTrace ex inp [a, b] le0 =
        (none, (probeOut ex inp b).2, [a, b])) := by
  refine ⟨?_, ?_, ?_⟩
  · intro h1
    simp [resolveTrace, h1]
  · intro h1 h2
    simp [resolveTrace, h1, h2]
  · intro h1 h2
    simp [resolveTrace, h1, h2]

/-- C1 (counterexample): a ProblemRecord with an empty verdict sequence is
treated as solved by the aggregator — `all` of an empty list is true — and
it does increment the Easy tier count, contradicting the claim that an
empty verdict sequence never increments any tier count. -/
theorem c1_empty_record_counts :
    passFlag ⟨"python".data, "a".data, 1000, []⟩ = true ∧
    tierCounts [⟨"python".data, "a".data, 1000, []⟩] = (1, 0) := by decide

/-- C1 (amended): the aggregator counts a record as solved iff every
verdict in its sequence has outcome `PASSED` — vacuously true for the
empty sequence, so a submission with no gradable cases is counted as
solved; a solved record with a fresh id appends its id and difficulty,
a non-solved or already-counted record leaves the accumulator unchanged. -/
theorem c1_aggregator_pass_iff_all_passed :
    (∀ r : ProblemRecord,
      passFlag r = true ↔ ∀ v ∈ r.exec_outcome, v.exec_outcome = "PASSED".data) ∧
    (∀ acc r, passFlag r = false → countStep acc r = acc) ∧
    (∀ acc r, passFlag r = true → r.src_uid ∉ acc.1 →
      countStep acc r = (acc.1 ++ [r.src_uid], acc.2 ++ [r.difficulty])) ∧
    (∀ acc r, r.src_uid ∈ acc.1 → countStep acc r = acc) := by
  refine ⟨?_, ?_, ?_, ?_⟩
  · intro r
    simp [passFlag, List.all_eq_true]
  · intro acc r h
    simp [countStep, h]
  · intro acc r h hna
    simp [countStep, h, hna]
  · intro acc r h
    simp [countStep, h]

theorem c1_witness :
    countStep ([], []) ⟨"python".data, "a".data, 1000, [⟨[], [], none, [], "FAILED".data⟩]⟩ =
      ([], []) :=
  c1_aggregator_pass_iff_all_passed.2.1 ([], [])
    ⟨"python".data, "a".data, 1000, [⟨[], [], none, [], "FAILED".data⟩]⟩ (by decide)

/-- C2 (counterexample): when both candidate variants fail the probe, the
engine emits one `ERROR` verdict per filtered case, so in the produced
ProblemRecord a verdict does follow a non-`PASSED` verdict — here the
record has two verdicts and the first is not `PASSED`. -/
theorem c2_error_verdicts_follow :
    (run_python_code exBoom dataB).1.map (fun v => v.exec_outcome) =
      ["ERROR: boom".data, "ERROR: boom".data] ∧
    "ERROR: boom".data ≠ "PASSED".data := by decide

/-- C2 (amended): in the grading loop — i.e. whenever resolution succeeds —
every verdict except possibly the last is `PASSED`, so a `FAILED` or
`ERROR` verdict terminates the sequence; when resolution fails, the
verdict sequence is instead one uniform error verdict per filtered case,
and there non-`PASSED` verdicts are followed by further ones. -/
theorem c2_nonpassed_terminates_when_resolved :
    (∀ (ex : Exec) (fl : Str) (tcs : List TestCase),
      ∀ v ∈ (runCases ex fl tcs).dropLast, v.exec_outcome = "PASSED".data) ∧
    (∀ (ex : Exec) (d : SubmissionData) (first : TestCase) (rest : List TestCase)
      (le : Str) (tr : List Str),
      filterTestcases d.testcases = first :: rest →
      resolveTrace ex (preprocess_input first.input) (tried_versions d.lang) [] =
        (none, le, tr) →
      (run_python_code ex d).1 = (first :: rest).map (unresolvedVerdict le)) := by
  constructor
  · intro ex fl tcs
    exact runCases_dropLast_passed ex fl tcs
  · intro ex d first rest le tr hf hr
    rw [run_unresolved_eq ex d first rest le tr hf hr]

theorem c2_witness :
    (run_python_code exBoom dataB).1 =
      [tcOne, tcFail].map (unresolvedVerdict "boom".data) :=
  c2_nonpassed_terminates_when_resolved.2 exBoom dataB tcOne [tcFail] "boom".data
    ["python3".data, "python2".data] (by decide) (by decide)

/-- C6 (code bug): the normalizer is not idempotent.  The token
`-0.0000001` has magnitude at least 1e-9, so it is rendered with the
format spec .6f, which keeps the sign and yields `-0.000000`; a second
normalization parses that as negative zero, whose magnitude is below
1e-9, and forces it to `0.000000` — contradicting both the claimed
idempotence and the function's own docstring, which promises that
`-0.000000` is converted to `0.000000` in its output. -/
theorem c6_normalize_not_idempotent :
    normalize_output "-0.0000001".data = "-0.000000".data ∧
    normalize_output (normalize_output "-0.0000001".data) = "0.000000".data ∧
    normalize_output (normalize_output "-0.0000001".data) ≠
      normalize_output "-0.0000001".data := by decide

/-- C7: a token parsing as a float whose magnitude is below the program's
threshold — the binary64 value of the literal 1e-9, and in particular any
parsed double of magnitude strictly below exact 1e-9, since the literal's
double exceeds exact 1e-9 — is replaced by the literal `0.000000`; any
other parsing token is replaced by its format-spec-.6f rendering; in
particular both `-0.000000` and `0.0000000001` normalize to `0.000000`. -/
theorem c7_small_tokens_zero :
    (∀ (t : Str) (f : PyFloat), parseFloat t = some f →
      absLtLit f lit1e9 = true → cleanToken t = "0.000000".data) ∧
    (∀ (t : Str) (f : PyFloat), parseFloat t = some f →
      absLtLit f lit1e9 = false → cleanToken t = format6 f) ∧
    (∀ (t : Str) (v : ℚ), parseFloat t = some (.finite v) →
      |v| < mkRat 1 1000000000 → cleanToken t = "0.000000".data) ∧
    mkRat 1 1000000000 < lit1e9 ∧
    cleanToken "-0.000000".data = "0.000000".data ∧
    cleanToken "0.0000000001".data = "0.000000".data ∧
    normalize_output "-0.000000".data = "0.000000".data ∧
    normalize_output "0.0000000001".data = "0.000000".data := by
  have hzero : ∀ (t : Str) (f : PyFloat), parseFloat t = some f →
      absLtLit f lit1e9 = true → cleanToken t = "0.000000".data := by
    intro t f hp h
    unfold cleanToken
    rw [hp]
    simp [h]
  refine ⟨hzero, ?_, ?_, by decide, by decide, by decide, by decide, by decide⟩
  · intro t f hp h
    unfold cleanToken
    rw [hp]
    simp [h]
  · intro t v hp h
    apply hzero t (.finite v) hp
    have hlt : |v| < lit1e9 := lt_trans h (by decide)
    simpa [absLtLit] using hlt

theorem c7_witness :
    cleanToken "0.0000000001".data = "0.000000".data :=
  c7_small_tokens_zero.2.2.1 "0.0000000001".data
    (mkRat 7737125245533627 77371252455336267181195264) (by decide) (by decide)

/-- C8: the filter keeps exactly the cases in which no input line and no
expected output contains the sentinel, it is the standard order-preserving
`filter` (hence a sublist of the original sequence), and membership in the
filtered sequence is membership in the original plus absence of the
sentinel. -/
theorem c8_filter_sentinel (tcs : List TestCase) :
    filterTestcases tcs = tcs.filter (fun tc => !hasSentinel tc) ∧
    (filterTestcases tcs).Sublist tcs ∧
    ∀ tc, tc ∈ filterTestcases tcs ↔ tc ∈ tcs ∧ hasSentinel tc = false := by
  refine ⟨filterTestcases_eq_filter tcs, ?_, ?_⟩
  · unfold filterTestcases
    exact List.filter_sublist tcs
  · intro tc
    rw [filterTestcases_eq_filter, List.mem_filter]
    simp

theorem c8_witness :
    filterTestcases [tcDots, tcOne] =
      [tcDots, tcOne].filter (fun tc => !hasSentinel tc) :=
  (c8_filter_sentinel [tcDots, tcOne]).1

/-- C9 (counterexample): the sandbox hands back `stdout.strip()`, which
removes leading whitespace as well — a captured stdout of two spaces and
`hi` comes back as `hi`, so leading whitespace of the captured output is
not preserved. -/
theorem c9_leading_whitespace_removed :
    (execute_command (RawExec.completed "  hi".data "e".data)).1 = some "hi".data ∧
    "hi".data ≠ "  hi".data := by decide

/-- C9 (amended): for a completed execution both captured streams are
stripped of leading and trailing whitespace before being handed back: the
results are whitespace-free at both ends and are contiguous fragments of
the captured texts. -/
theorem c9_strip_both_sides (out err : Str) :
    execute_command (RawExec.completed out err) = (some (strip out), strip err) ∧
    (∀ c, (strip out).head? = some c → pyWS c = false) ∧
    (∀ c, (strip out).getLast? = some c → pyWS c = false) ∧
    (∃ l r, out = l ++ strip out ++ r) ∧
    (∀ c, (strip err).head? = some c → pyWS c = false) ∧
    (∀ c, (strip err).getLast? = some c → pyWS c = false) ∧
    (∃ l r, err = l ++ strip err ++ r) := by
  refine ⟨rfl, ?_, ?_, strip_infix_decomp out, ?_, ?_, strip_infix_decomp err⟩
  · intro c hc
    exact strip_head_not_ws out c hc
  · intro c hc
    exact strip_last_not_ws out c hc
  · intro c hc
    exact strip_head_not_ws err c hc
  · intro c hc
    exact strip_last_not_ws err c hc

theorem c9_witness :
    execute_command (RawExec.completed "  hi  ".data "x".data) =
      (some (strip "  hi  ".data), strip "x".data) ∧
    strip "  hi  ".data = "hi".data :=
  ⟨(c9_strip_both_sides "  hi  ".data "x".data).1, by decide⟩

/-- C3: for a successfully resolved submission whose first `k` filtered
cases grade `PASSED` and whose case at index `k` does not, the emitted
verdict sequence is the `k` passing verdicts followed by that one failing
verdict — length exactly `k + 1` — it coincides with grading only the
first `k + 1` cases (later cases are never executed), and the final
verdict is `FAILED` or `ERROR`-prefixed. -/
theorem c3_first_failure_truncates (ex : Exec) (d : SubmissionData) (first : TestCase)
    (rest : List TestCase) (fl le : Str) (tr : List Str) (k : ℕ) (tck : TestCase)
    (hf : filterTestcases d.testcases = first :: rest)
    (hr : resolveTrace ex (preprocess_input first.input) (tried_versions d.lang) [] =
      (some fl, le, tr))
    (hk : (first :: rest)[k]? = some tck)
    (hpass : ∀ tc ∈ (first :: rest).take k,
      (gradeCase ex fl tc).exec_outcome = "PASSED".data)
    (hfail : (gradeCase ex fl tck).exec_outcome ≠ "PASSED".data) :
    (run_python_code ex d).1 =
      ((first :: rest).take k).map (gradeCase ex fl) ++ [gradeCase ex fl tck] ∧
    (run_python_code ex d).1.length = k + 1 ∧
    (run_python_code ex d).1 = runCases ex fl ((first :: rest).take (k + 1)) ∧
    ((gradeCase ex fl tck).exec_outcome = "FAILED".data ∨
      ∃ msg, (gradeCase ex fl tck).exec_outcome = "ERROR: ".data ++ msg) := by
  have h1 : (run_python_code ex d).1 = runCases ex fl (first :: rest) := by
    rw [run_resolved_eq ex d first rest fl le tr hf hr]
  have hklen : k < (first :: rest).length := (List.getElem?_eq_some.mp hk).1
  have hmain := runCases_first_fail ex fl (first :: rest) k tck hk hpass hfail
  have heq : (run_python_code ex d).1 =
      ((first :: rest).take k).map (gradeCase ex fl) ++ [gradeCase ex fl tck] := by
    rw [h1, hmain]
  refine ⟨heq, ?_, ?_, ?_⟩
  · have hkle : k ≤ rest.length + 1 := by
      simp only [List.length_cons] at hklen
      omega
    rw [heq, List.length_append, List.length_map, List.length_take]
    simp only [List.length_cons]
    rw [Nat.min_eq_left hkle]
    simp
  · have hk2 : ((first :: rest).take (k + 1))[k]? = some tck := by
      rw [List.getElem?_take, if_pos (Nat.lt_succ_self k)]
      exact hk
    have hp2 : ∀ tc ∈ ((first :: rest).take (k + 1)).take k,
        (gradeCase ex fl tc).exec_outcome = "PASSED".data := by
      intro tc htc
      apply hpass
      rw [List.take_take, Nat.min_eq_left (Nat.le_succ k)] at htc
      exact htc
    have hmain2 := runCases_first_fail ex fl ((first :: rest).take (k + 1)) k tck hk2 hp2 hfail
    rw [heq, hmain2, List.take_take, Nat.min_eq_left (Nat.le_succ k)]
  · rcases gradeCase_outcome_cases ex fl tck with h | h | h
    · exact absurd h hfail
    · exact Or.inl h
    · exact Or.inr h

theorem c3_witness :
    (run_python_code exEcho dataB).1 =
      ([tcOne, tcFail].take 1).map (gradeCase exEcho "python3".data) ++
        [gradeCase exEcho "python3".data tcFail] :=
  (c3_first_failure_truncates exEcho dataB tcOne [tcFail] "python3".data [] ["python3".data]
    1 tcFail (by decide) (by decide) (by decide) (by decide) (by decide)).1

/-- C4: for a submission with at least one filtered case the resolver
considers exactly the two candidates — the declared variant first, then
the other known variant — probing each on the first filtered case's input
only: an error-free first probe resolves to the declared variant after a
single probe; otherwise an error-free second probe resolves to the other
variant; otherwise resolution fails carrying the second probe's error
text; and a successful resolution makes the engine grade the filtered
cases with the resolved variant. -/
theorem c4_resolver_two_candidates (ex : Exec) (d : SubmissionData) (first : TestCase)
    (rest : List TestCase)
    (hf : filterTestcases d.testcases = first :: rest) :
    tried_versions d.lang = [d.lang, otherVariant d.lang] ∧
    ((probeOut ex (preprocess_input first.input) d.lang).2 = [] →
      resolveTrace ex (preprocess_input first.input) (tried_versions d.lang) [] =
        (some d.lang, [], [d.lang])) ∧
    ((probeOut ex (preprocess_input first.input) d.lang).2 ≠ [] →
      (probeOut ex (preprocess_input first.input) (otherVariant d.lang)).2 = [] →
      resolveTrace ex (preprocess_input first.input) (tried_versions d.lang) [] =
        (some (otherVariant d.lang), [], [d.lang, otherVariant d.lang])) ∧
    ((probeOut ex (preprocess_input first.input) d.lang).2 ≠ [] →
      (probeOut ex (preprocess_input first.input) (otherVariant d.lang)).2 ≠ [] →
      resolveTrace ex (preprocess_input first.input) (tried_versions d.lang) [] =
        (none, (probeOut ex (preprocess_input first.input) (otherVariant d.lang)).2,
          [d.lang, otherVariant d.lang])) ∧
    (∀ fl le tr,
      resolveTrace ex (preprocess_input first.input) (tried_versions d.lang) [] =
        (some fl, le, tr) →
      (run_python_code ex d).1 = runCases ex fl (first :: rest)) := by
  have hp := resolveTrace_pair ex (preprocess_input first.input) d.lang
    (otherVariant d.lang) []
  refine ⟨rfl, ?_, ?_, ?_, ?_⟩
  · intro h1
    exact hp.1 h1
  · intro h1 h2
    exact hp.2.1 h1 h2
  · intro h1 h2
    exact hp.2.2 h1 h2
  · intro fl le tr hr
    rw [run_resolved_eq ex d first rest fl le tr hf hr]

theorem c4_witness :
    resolveTrace exEcho (preprocess_input tcOne.input) (tried_versions dataB.lang) [] =
      (some dataB.lang, [], [dataB.lang]) :=
  (c4_resolver_two_candidates exEcho dataB tcOne [tcFail] (by decide)).2.1 (by decide)

/-- C5: when both candidate probes report non-empty error text, the engine
emits exactly one verdict per filtered case, each carrying the identical
error message — the error text of the last probed candidate — with the
outcome label prefixed by the error marker. -/
theorem c5_unresolved_uniform_errors (ex : Exec) (d : SubmissionData) (first : TestCase)
    (rest : List TestCase)
    (hf : filterTestcases d.testcases = first :: rest)
    (h1 : (probeOut ex (preprocess_input first.input) d.lang).2 ≠ [])
    (h2 : (probeOut ex (preprocess_input first.input) (otherVariant d.lang)).2 ≠ []) :
    (run_python_code ex d).1 =
      (first :: rest).map (unresolvedVerdict
        ((probeOut ex (preprocess_input first.input) (otherVariant d.lang)).2)) ∧
    (run_python_code ex d).1.length = (first :: rest).length ∧
    ∀ v ∈ (run_python_code ex d).1,
      v.error = (probeOut ex (preprocess_input first.input) (otherVariant d.lang)).2 ∧
      v.exec_outcome =
        "ERROR: ".data ++ (probeOut ex (preprocess_input first.input)
          (otherVariant d.lang)).2 := by
  have hr := (resolveTrace_pair ex (preprocess_input first.input) d.lang
    (otherVariant d.lang) []).2.2 h1 h2
  have hmap : (run_python_code ex d).1 =
      (first :: rest).map (unresolvedVerdict
        ((probeOut ex (preprocess_input first.input) (otherVariant d.lang)).2)) := by
    rw [run_unresolved_eq ex d first rest _ _ hf hr]
  refine ⟨hmap, ?_, ?_⟩
  · rw [hmap, List.length_map]
  · intro v hv
    rw [hmap] at hv
    rcases List.mem_map.mp hv with ⟨tc, _, hvtc⟩
    rw [← hvtc]
    exact ⟨rfl, rfl⟩

theorem c5_witness :
    (run_python_code exBoom dataB).1.length = [tcOne, tcFail].length :=
  (c5_unresolved_uniform_errors exBoom dataB tcOne [tcFail]
    (by decide) (by decide) (by decide)).2.1

/-- C10: when resolution succeeds with a variant different from the
declared one, the returned submission record has its `lang` field
overwritten with the resolved variant and every other field unchanged;
when the resolved variant equals the declared one, or resolution fails, or
no cases survive the filter, the record is returned unchanged. -/
theorem c10_lang_frame (ex : Exec) (d : SubmissionData) :
    (∀ first rest fl le tr,
      filterTestcases d.testcases = first :: rest →
      resolveTrace ex (preprocess_input first.input) (tried_versions d.lang) [] =
        (some fl, le, tr) →
      fl ≠ d.lang →
      (run_python_code ex d).2.lang = fl ∧
      (run_python_code ex d).2.source_code = d.source_code ∧
      (run_python_code ex d).2.testcases = d.testcases ∧
      (run_python_code ex d).2.lang_cluster = d.lang_cluster ∧
      (run_python_code ex d).2.src_uid = d.src_uid ∧
      (run_python_code ex d).2.difficulty = d.difficulty) ∧
    (∀ first rest fl le tr,
      filterTestcases d.testcases = first :: rest →
      resolveTrace ex (preprocess_input first.input) (tried_versions d.lang) [] =
        (some fl, le, tr) →
      fl = d.lang →
      (run_python_code ex d).2 = d) ∧
    (∀ first rest le tr,
      filterTestcases d.testcases = first :: rest →
      resolveTrace ex (preprocess_input first.input) (tried_versions d.lang) [] =
        (none, le, tr) →
      (run_python_code ex d).2 = d) ∧
    (filterTestcases d.testcases = [] → (run_python_code ex d).2 = d) := by
  refine ⟨?_, ?_, ?_, ?_⟩
  · intro first rest fl le tr hf hr hne
    rw [run_resolved_eq ex d first rest fl le tr hf hr]
    simp [hne]
  · intro first rest fl le tr hf hr hfl
    rw [run_resolved_eq ex d first rest fl le tr hf hr]
    simp [hfl]
  · intro first rest le tr hf hr
    rw [run_unresolved_eq ex d first rest le tr hf hr]
  · intro h
    unfold run_python_code
    rw [h]

theorem c10_witness :
    (run_python_code exPy2 dataS).2.lang = "python2".data :=
  ((c10_lang_frame exPy2 dataS).1 tcOne [] "python2".data []
    ["python3".data, "python2".data] (by decide) (by decide) (by decide)).1
